import Mathlib

/-!
# Propoflow — Proposal Lifecycle & Payment-Staging Engine: formal embedding

Shallow embedding, translated from `src/app.py` and `src/models.py`, of the
parts of the code relevant to the verified claims: the money parser
(`brl_to_cents`), the display formatter (`cents_to_brl`), the totals
calculator (`compute_total`), the payment-stage splitter
(`upsert_payment_stages` and its helpers), the proposal status state machine
(the state-mutating parts of `send_whatsapp`, `public_proposal`,
`accept_proposal`), and the edit/versioning flow (`edit_proposal_save`).

Conventions:
* Python `int` is modelled as `Int`; monetary values are integer cents.
* Timestamps (`datetime`) are modelled as `Int` seconds; `timedelta(minutes=10)`
  is `600`, one day is `86400`.
* Python's `round` applied to a value computed as `total * (percent / 100.0)`
  (and similar) is modelled as round-half-to-even of the exact rational
  `total * percent / 100`; all concrete evaluations used in the theorems below
  were checked to coincide with CPython's `float` arithmetic at those inputs.
* Nullable database columns are `Option`; `db.delete` / `db.add` sequences on
  child rows are modelled as functions from the old row list to the new one.
-/

namespace Propoflow

/-- Round-half-to-even of `n / 100` (Python `int(round(x))` where `x` is
`n * (1/100.0)` computed exactly): the floor, bumped by one when the
remainder exceeds 50, and resolved towards the even integer at a tie. -/
def pyRound100 (n : Int) : Int :=
  let f := Int.ediv n 100
  let r := Int.emod n 100
  if r < 50 then f
  else if 50 < r then f + 1
  else if Int.emod f 2 = 0 then f else f + 1

/-- Round-half-to-even of the fraction `n / d` (`d > 0`), used for the money
parser where the decimal string denotes `n / d` exactly. -/
def pyRoundFrac (n d : Int) : Int :=
  let f := Int.ediv n d
  let r := Int.emod n d
  if 2 * r < d then f
  else if d < 2 * r then f + 1
  else if Int.emod f 2 = 0 then f else f + 1

/-! ## Payment Stage Splitter (`app.py` lines 275–314) -/

/-- `plan_to_percents` (`app.py` 275–283): named payment-plan templates. -/
def plan_to_percents (payment_plan : String) : List (String × Int) :=
  let s := payment_plan.trim
  if s = "entrada_final_50" then [("Entrada", 50), ("Na entrega", 50)]
  else if s = "entrada_final_30" then [("Entrada", 30), ("Na entrega", 70)]
  else if s = "3x_30_40_30" then
    [("Entrada", 30), ("Durante o serviço", 40), ("Na entrega", 30)]
  else [("À vista", 100)]

/-- `max(0, min(100, int(percent or 0)))` (`app.py` 289). -/
def clampPercent (p : Int) : Int := max 0 (min 100 p)

/-- First half of `upsert_payment_stages` (`app.py` 287–294): clamp each
percent into `[0, 100]`, drop the stages whose clamped percent is `0`, and
fall back to a single 100% stage when nothing survives. -/
def survivorsWithFallback (plan : List (String × Int)) : List (String × Int) :=
  let cleaned := (plan.map (fun tp => (tp.1, clampPercent tp.2))).filter
    (fun tp => 0 < tp.2)
  if cleaned.isEmpty then [("À vista", 100)] else cleaned

/-- `cleaned[-1] = (t, max(0, min(100, pcent + delta)))` (`app.py` 299–300):
add `d` to the last element's percent, clamped back into `[0, 100]`. -/
def adjustLast (l : List (String × Int)) (d : Int) : List (String × Int) :=
  match l.getLast? with
  | none => []
  | some tp => l.dropLast ++ [(tp.1, clampPercent (tp.2 + d))]

/-- Percentage normalization of `upsert_payment_stages` (`app.py` 287–300):
clamp, drop zeros, fall back, then — when the surviving percents do not sum
to 100 — add the signed difference to the last stage (clamped). -/
def cleanedPlan (plan : List (String × Int)) : List (String × Int) :=
  let cleaned := survivorsWithFallback plan
  let total_percent := (cleaned.map Prod.snd).sum
  if total_percent ≠ 100 then adjustLast cleaned (100 - total_percent)
  else cleaned

/-- `amt(percent)` (`app.py` 304–305): `int(round(total * (percent / 100.0)))`. -/
def stageAmount (total percent : Int) : Int := pyRound100 (total * percent)

/-- `pending | paid` — `PaymentStage.status` (`models.py` 161). -/
inductive StageStatus
  | pending
  | paid
deriving DecidableEq, Repr

/-- One `payment_stages` row (`models.py` 151–164), keyed fields only. -/
structure PaymentStage where
  title : String
  percent : Int
  amount_cents : Int
  status : StageStatus
  paid_at : Option Int
deriving DecidableEq, Repr

/-- Stage rows inserted by `upsert_payment_stages` (`app.py` 312–313): one per
cleaned plan entry, `status="pending"`, `paid_at` left at its `None` default. -/
def buildStages (total : Int) (plan : List (String × Int)) : List PaymentStage :=
  (cleanedPlan plan).map (fun tp =>
    { title := tp.1, percent := tp.2, amount_cents := stageAmount total tp.2,
      status := StageStatus.pending, paid_at := none })

/-- `upsert_payment_stages` (`app.py` 286–314) as a transformer of a
proposal's stage-row list: every existing row is deleted (`app.py` 307–310)
and the freshly built rows are inserted, so the result ignores `old`. -/
def upsert_payment_stages (old : List PaymentStage) (total : Int)
    (plan : List (String × Int)) : List PaymentStage :=
  buildStages total plan

/-! ## Money Codec (`app.py` 190–222) -/

/-- The character class kept by `re.sub(r"[^\d,\.]", "", s)` (`app.py` 202).
The embedding reads `\d` as the ASCII digits; the source's regex also admits
other Unicode digits, which Python's `float` then parses with the same
value, so the restriction loses no behavior the theorems below rely on. -/
def isMoneyChar (c : Char) : Bool := c.isDigit || c = ',' || c = '.'

/-- `s = str(v).strip()` followed by `re.sub(r"[^\d,\.]", "", s)`
(`app.py` 201–202); the strip is subsumed by the character filter. -/
def brlStrip (v : String) : List Char := v.toList.filter isMoneyChar

/-- The separator rewrite of `brl_to_cents` (`app.py` 206–211): with both
separators present, dots are thousands marks and the comma the decimal mark;
with only commas, the comma is the decimal mark; otherwise unchanged. -/
def brlTransform (s : List Char) : List Char :=
  if s.contains ',' && s.contains '.' then
    (s.filter (fun c => c ≠ '.')).map (fun c => if c = ',' then '.' else c)
  else if s.contains ',' then s.map (fun c => if c = ',' then '.' else c)
  else s

/-- Numeric value of a digit list, most significant first. -/
def digitsVal (l : List Char) : Nat :=
  l.foldl (fun a c => a * 10 + (c.toNat - 48)) 0

/-- Python `float(tmp)` on a string drawn from digits, `,` and `.`
(the alphabet left by `brlStrip`/`brlTransform`): it succeeds exactly when
the string has no comma, at most one dot and at least one digit, and then
denotes `mantissa / 10 ^ fracLen`.  Returns that pair, or `none` when
`float` would raise (`app.py` 213–217 wraps it in `try/except`). -/
def parseFloat (s : List Char) : Option (Nat × Nat) :=
  if s.all (fun c => c.isDigit || c = '.') &&
      (s.filter (fun c => c = '.')).length ≤ 1 && s.any Char.isDigit then
    let intPart := s.takeWhile (fun c => c ≠ '.')
    let fracPart := (s.dropWhile (fun c => c ≠ '.')).drop 1
    some (digitsVal (intPart ++ fracPart), fracPart.length)
  else none

/-- `brl_to_cents` (`app.py` 190–217): strip to the money alphabet, rewrite
separators, parse as a decimal number and round its hundredfold; `0` for
empty input, for input with no kept character, and when parsing fails. -/
def brl_to_cents (v : String) : Int :=
  if v = "" then 0
  else
    let s := brlStrip v
    if s = [] then 0
    else
      match parseFloat (brlTransform s) with
      | some (m, k) => pyRoundFrac ((m : Int) * 100) ((10 : Int) ^ k)
      | none => 0

/-- Digits of `n` (most significant first), `['0']` for `0`. -/
def natDigits (n : Nat) : List Char :=
  (Nat.toDigits 10 n)

/-- Walk the digits least-significant first, inserting `.` before every digit
whose (0-based) position is a positive multiple of three. -/
def groupAux : List Char → Nat → List Char
  | [], _ => []
  | c :: rest, k =>
    if k ≠ 0 ∧ k % 3 = 0 then '.' :: c :: groupAux rest (k + 1)
    else c :: groupAux rest (k + 1)

/-- Insert a thousands separator `.` every three digits from the right. -/
def groupThousands (l : List Char) : List Char :=
  (groupAux l.reverse 0).reverse

/-- `cents_to_brl` (`app.py` 220–222): clamp to `≥ 0`, then render
`R$ <integer part with "." thousands marks>,<two-digit cents>`.  Exact-decimal
model of `f"R$ {n:,.2f}"` on `n = cents / 100.0` followed by the separator
swap; the float detour is value-preserving whenever the double nearest to
`cents / 100` rounds back to the same hundredth, which holds for every amount
below `2 ^ 45` cents. -/
def cents_to_brl (cents : Int) : String :=
  let n := max 0 cents
  let whole := (n / 100).toNat
  let frac := (Int.emod n 100).toNat
  String.mk ('R' :: '$' :: ' ' :: groupThousands (natDigits whole)) ++
    "," ++ String.mk [Char.ofNat (48 + frac / 10), Char.ofNat (48 + frac % 10)]

/-! ## Totals Calculator (`app.py` 235–242) -/

/-- One `proposal_items` row (`models.py` 121–135); `qty` is a Python float,
modelled as an exact rational. -/
structure ProposalItem where
  sort : Int
  description : String
  unit : String
  qty : ℚ
  unit_price_cents : Int
  line_total_cents : Int
deriving DecidableEq, Repr

/-- `compute_total` (`app.py` 235–242): sum of line totals, plus rounded
overhead and margin percentages (clamped to `≥ 0`), the result clamped to
`≥ 0`. -/
def compute_total (items : List ProposalItem) (overhead_percent margin_percent : Int) : Int :=
  let base := (items.map (fun it => it.line_total_cents)).sum
  let ov := max 0 overhead_percent
  let mg := max 0 margin_percent
  max 0 (base + pyRound100 (base * ov) + pyRound100 (base * mg))

/-! ## Proposal status state machine (`app.py` 988–1011, 1293–1355) -/

/-- `created | sent | viewed | accepted` — `Proposal.status` (`models.py` 94). -/
inductive Status
  | created
  | sent
  | viewed
  | accepted
deriving DecidableEq, Repr

/-- Position of a status in the forward order
`created → sent → viewed → accepted`. -/
def statusRank : Status → Nat
  | Status.created => 0
  | Status.sent => 1
  | Status.viewed => 2
  | Status.accepted => 3

/-- Python `str.strip()`: drop leading and trailing whitespace. -/
def pyStrip (s : String) : String :=
  String.mk ((s.toList.dropWhile Char.isWhitespace).reverse.dropWhile
    Char.isWhitespace).reverse

/-- One `proposals` row (`models.py` 77–118), restricted to the columns the
lifecycle, tracking and versioning logic reads or writes. -/
structure Proposal where
  client_id : Option Int
  client_name : String
  client_whatsapp : Option String
  project_name : String
  description : String
  deadline : String
  price : String
  status : Status
  view_count : Int
  first_viewed_at : Option Int
  last_viewed_at : Option Int
  last_activity_at : Option Int
  revision : Int
  updated_at : Option Int
  total_cents : Int
  accepted_at : Option Int
  accepted_name : Option String
  accepted_email : Option String
deriving DecidableEq, Repr

/-- The state change of `send_whatsapp` (`app.py` 1005–1009) once the
session and phone guards have passed (their early-return branches mutate
nothing): any non-accepted proposal is stamped `sent`, and the activity
timestamp is refreshed unconditionally. -/
def send_whatsapp (p : Proposal) (now : Int) : Proposal :=
  let p := if p.status ≠ Status.accepted then { p with status := Status.sent } else p
  { p with last_activity_at := some now }

/-- The state change of `public_proposal` (`app.py` 1302–1333).  `lastSeen`
is the parsed `pv_<public_id>` cookie timestamp from the requesting browser
(`none` when the cookie is absent or unparseable, which re-enables counting).
Inside the 10-minute window nothing is touched; otherwise the view counter
and timestamps advance, and a `sent`/`created` proposal with no acceptance
becomes `viewed`. -/
def public_proposal (p : Proposal) (lastSeen : Option Int) (now : Int) : Proposal :=
  let should_count : Bool :=
    match lastSeen with
    | none => true
    | some t => !(now - t < 600 : Bool)
  if should_count then
    let p := { p with
      view_count := p.view_count + 1,
      first_viewed_at := match p.first_viewed_at with
        | none => some now
        | some t => some t,
      last_viewed_at := some now,
      last_activity_at := some now }
    if (p.status = Status.sent ∨ p.status = Status.created) ∧ p.accepted_at = none then
      { p with status := Status.viewed }
    else p
  else p

/-- The state change of `accept_proposal` (`app.py` 1345–1353): only a
proposal with no recorded acceptance is stamped; otherwise the row is
returned untouched and the stored confirmation is re-rendered. -/
def accept_proposal (p : Proposal) (name email : String) (now : Int) : Proposal :=
  if p.accepted_at = none then
    { p with
      accepted_at := some now,
      accepted_name := some (pyStrip name),
      accepted_email := if pyStrip email = "" then none else some (pyStrip email),
      status := Status.accepted,
      last_activity_at := some now }
  else p

/-! ## Follow-up scheduler (spec §4.4; no scheduler code exists under `src/`) -/

/-- `pending | sent` — follow-up entry status (spec §3, FollowUpSchedule). -/
inductive FuStatus
  | pending
  | sent
deriving DecidableEq, Repr

/-- Modelled from the spec: one FollowUpSchedule row — "one scheduled
client-outreach nudge at a fixed offset (day 1, 3, or 7) from an anchor
timestamp", with "step (1|3|7), due timestamp, status (pending|sent),
sent timestamp" (spec §3); no such model or route exists under `src/`. -/
structure FollowUp where
  step : Nat
  due : Int
  status : FuStatus
  sent_at : Option Int
deriving DecidableEq, Repr

/-- Modelled from the spec: the anchor timestamp of §4.4 — "last activity
if set, else creation time, else now as a final fallback"; the scheduler
code is absent from `src/`. -/
def fuAnchor (lastActivity createdAt : Option Int) (now : Int) : Int :=
  match lastActivity with
  | some t => t
  | none =>
    match createdAt with
    | some t => t
    | none => now

/-- Modelled from the spec: the follow-up-schedule-ensure operation of
§4.4 — "for a non-accepted proposal, ensure exactly one pending schedule
entry exists for each offset in {1, 3, 7} days from the anchor timestamp
... Idempotent: steps already present (regardless of status) are never
duplicated" — and §3: the schedule "is not created/consulted once the
proposal is accepted".  The scheduler itself is absent from `src/`. -/
def ensure_followups (accepted : Bool) (lastActivity createdAt : Option Int)
    (now : Int) (existing : List FollowUp) : List FollowUp :=
  if accepted then existing
  else
    let anchor := fuAnchor lastActivity createdAt now
    existing ++
      (([1, 3, 7] : List Nat).filter
        (fun s => !(existing.any (fun f => f.step = s)))).map
        (fun s => { step := s, due := anchor + (s : Int) * 86400,
                    status := FuStatus.pending, sent_at := none })

/-! ## Edit flow and versioning (`app.py` 1040–1156, `models.py` 138–148) -/

/-- `normalize_deadline` (`app.py` 225–232): an all-digit entry is rendered
as `"<n> dia"`/`"<n> dias"`, anything else is kept trimmed. -/
def normalize_deadline (deadline : String) : String :=
  let s := pyStrip deadline
  if s = "" then s
  else if s.toList.all Char.isDigit then
    let n := digitsVal s.toList
    String.mk (natDigits n) ++ (if n = 1 then " dia" else " dias")
  else s

/-- One item entry of the snapshot dict (`app.py` 1078–1081): the row
without its `sort` key. -/
structure SnapItem where
  description : String
  qty : ℚ
  unit : String
  unit_price_cents : Int
  line_total_cents : Int
deriving DecidableEq, Repr

/-- One stage entry of the snapshot dict (`app.py` 1082–1085). -/
structure SnapStage where
  title : String
  percent : Int
  amount_cents : Int
  status : StageStatus
deriving DecidableEq, Repr

/-- The `snapshot` dict built by `edit_proposal_save` (`app.py` 1068–1086). -/
structure Snapshot where
  revision : Int
  client_id : Option Int
  client_name : String
  client_whatsapp : Option String
  project_name : String
  description : String
  deadline : String
  price : String
  total_cents : Int
  items : List SnapItem
  payment_stages : List SnapStage
deriving DecidableEq, Repr

/-- One `proposal_versions` row (`models.py` 138–148). -/
structure Version where
  revision : Int
  snapshot : Snapshot
deriving DecidableEq, Repr

/-- A proposal's slice of the database: its row, its item rows, its stage
rows, and its version rows in creation order. -/
structure DbState where
  prop : Proposal
  items : List ProposalItem
  stages : List PaymentStage
  versions : List Version
deriving DecidableEq, Repr

/-- The snapshot of the current state, as serialized at `app.py` 1068–1086. -/
def snapshotOf (st : DbState) : Snapshot :=
  { revision := st.prop.revision,
    client_id := st.prop.client_id,
    client_name := st.prop.client_name,
    client_whatsapp := st.prop.client_whatsapp,
    project_name := st.prop.project_name,
    description := st.prop.description,
    deadline := st.prop.deadline,
    price := st.prop.price,
    total_cents := st.prop.total_cents,
    items := st.items.map (fun it =>
      { description := it.description, qty := it.qty, unit := it.unit,
        unit_price_cents := it.unit_price_cents,
        line_total_cents := it.line_total_cents }),
    payment_stages := st.stages.map (fun s =>
      { title := s.title, percent := s.percent,
        amount_cents := s.amount_cents, status := s.status }) }

/-- The form input of one edit, after the service-default prefill
(`app.py` 1091–1103) and the client selection/upsert (`app.py` 1105–1119)
have resolved: `client_id` is the resolved client reference (`none` keeps
the stored one), `items` is the output of `rebuild_items_from_form`, and
`price` is the raw manual-override field. -/
structure EditInput where
  client_id : Option Int
  client_name : String
  client_whatsapp : String
  project_name : String
  description : String
  deadline : String
  price : String
  payment_plan : String
  items : List ProposalItem
deriving DecidableEq, Repr

/-- `edit_proposal_save` (`app.py` 1040–1156) on the proposal's database
slice: append the pre-edit snapshot tagged with the pre-increment revision
(`app.py` 1087), then bump the revision (`app.py` 1121), overwrite the
scalar fields, replace the items wholesale, recompute the total (manual
override wins when positive), and regenerate the payment stages. -/
def edit_proposal_save (st : DbState) (e : EditInput) (now : Int) : DbState :=
  let p := st.prop
  let versions := st.versions ++ [{ revision := p.revision, snapshot := snapshotOf st }]
  let items := e.items
  let total0 := compute_total items 0 0
  let override := brl_to_cents (pyStrip e.price)
  let total := if 0 < override then override else total0
  let p := { p with
    client_id := match e.client_id with
      | some i => some i
      | none => p.client_id,
    revision := (if p.revision = 0 then 1 else p.revision) + 1,
    updated_at := some now,
    last_activity_at := some now,
    client_name := pyStrip e.client_name,
    client_whatsapp := if pyStrip e.client_whatsapp = "" then none
      else some (pyStrip e.client_whatsapp),
    project_name := pyStrip e.project_name,
    description := pyStrip e.description,
    deadline := normalize_deadline e.deadline,
    total_cents := total,
    price := cents_to_brl total }
  { prop := p, items := items,
    stages := upsert_payment_stages st.stages total (plan_to_percents e.payment_plan),
    versions := versions }

/-- A sequence of edits, each with its wall-clock instant, applied in order. -/
def iterEdits (st : DbState) (es : List (EditInput × Int)) : DbState :=
  es.foldl (fun st e => edit_proposal_save st e.1 e.2) st

/-! ## Sample records used by witnesses and counterexamples -/

/-- A proposal in the `viewed` state, not yet accepted. -/
def sampleViewed : Proposal :=
  { client_id := some 7, client_name := "Ana", client_whatsapp := some "11999990000",
    project_name := "Pintura", description := "Sala e cozinha", deadline := "7 dias",
    price := "R$ 1.000,00", status := Status.viewed, view_count := 2,
    first_viewed_at := some 100, last_viewed_at := some 200,
    last_activity_at := some 200, revision := 1, updated_at := none,
    total_cents := 100000, accepted_at := none, accepted_name := none,
    accepted_email := none }

/-- A proposal already accepted (status `accepted`, acceptance recorded). -/
def sampleAccepted : Proposal :=
  { client_id := some 7, client_name := "Ana", client_whatsapp := some "11999990000",
    project_name := "Pintura", description := "Sala e cozinha", deadline := "7 dias",
    price := "R$ 1.000,00", status := Status.accepted, view_count := 3,
    first_viewed_at := some 100, last_viewed_at := some 300,
    last_activity_at := some 400, revision := 2, updated_at := some 350,
    total_cents := 100000, accepted_at := some 400, accepted_name := some "Ana",
    accepted_email := some "ana@mail.com" }

/-- A freshly created proposal (revision 1, no versions, no views). -/
def sampleFresh : Proposal :=
  { client_id := none, client_name := "Bruno", client_whatsapp := none,
    project_name := "Faxina", description := "Casa toda", deadline := "2 dias",
    price := "R$ 250,00", status := Status.created, view_count := 0,
    first_viewed_at := none, last_viewed_at := none, last_activity_at := some 10,
    revision := 1, updated_at := some 10, total_cents := 25000,
    accepted_at := none, accepted_name := none, accepted_email := none }

/-- The database slice of a freshly created proposal. -/
def sampleFreshDb : DbState :=
  { prop := sampleFresh,
    items := [{ sort := 0, description := "Faxina", unit := "un", qty := 1,
                unit_price_cents := 25000, line_total_cents := 25000 }],
    stages := [{ title := "À vista", percent := 100, amount_cents := 25000,
                 status := StageStatus.pending, paid_at := none }],
    versions := [] }

/-- One concrete edit submission. -/
def sampleEdit1 : EditInput :=
  { client_id := some 9, client_name := " Bruno ", client_whatsapp := "11988887777",
    project_name := "Faxina completa", description := "Casa e quintal",
    deadline := "3", price := "300", payment_plan := "entrada_final_50",
    items := [{ sort := 0, description := "Faxina", unit := "un", qty := 1,
                unit_price_cents := 28000, line_total_cents := 28000 }] }

/-- A second concrete edit submission. -/
def sampleEdit2 : EditInput :=
  { client_id := none, client_name := "Bruno", client_whatsapp := "",
    project_name := "Faxina completa", description := "Casa e quintal",
    deadline := "1", price := "", payment_plan := "3x_30_40_30",
    items := [{ sort := 0, description := "Faxina", unit := "un", qty := 2,
                unit_price_cents := 15000, line_total_cents := 30000 }] }

/-- The two sample edits, with their timestamps. -/
def sampleEdits : List (EditInput × Int) := [(sampleEdit1, 50), (sampleEdit2, 60)]

end Propoflow

namespace Propoflow

/-! ### Splitter sanity checks -/

example : cleanedPlan [("Deposit", 30), ("Delivery", 80)] =
    [("Deposit", 30), ("Delivery", 70)] := by decide

example : (buildStages 10001 [("A", 33), ("B", 33), ("C", 34)]).map
    (fun s => s.amount_cents) = [3300, 3300, 3400] := by decide

example : brl_to_cents "1.500,00" = 150000 := by decide

example : brl_to_cents "250,50" = 25050 := by decide

example : brl_to_cents "5.0" = 500 := by decide

example : brl_to_cents "abc" = 0 := by decide

example : cents_to_brl 150000 = "R$ 1.500,00" := by decide

example : cents_to_brl (-5) = "R$ 0,00" := by decide

/-! ## C5 — double acceptance is a success no-op -/

/-- C5: for every already-accepted proposal (acceptance recorded), a second
or any subsequent acceptance submission — with any name and email — leaves
the whole proposal row unchanged: `accepted_at`, `accepted_name`,
`accepted_email` and `status` keep their original values, and the stored
acceptance is what gets redisplayed. -/
theorem accept_proposal_idempotent (p : Proposal) (name email : String) (now : Int)
    (h : p.accepted_at ≠ none) : accept_proposal p name email now = p := by
  unfold accept_proposal
  simp [h]

/-- Witness for `accept_proposal_idempotent`: a second acceptance with a
different name and email against `sampleAccepted` changes nothing. -/
theorem accept_proposal_idempotent_witness :
    sampleAccepted.accepted_at ≠ none ∧
      accept_proposal sampleAccepted "Maria" "maria@mail.com" 999 = sampleAccepted :=
  ⟨by decide, accept_proposal_idempotent sampleAccepted "Maria" "maria@mail.com" 999
    (by decide)⟩

/-! ## C7 — debounced repeat views fire no tracking side effect -/

/-- C7: a repeat view of the public link from the same browser within ten
minutes of the previously recorded view changes nothing on the proposal:
`view_count`, `first_viewed_at`, `last_viewed_at`, `last_activity_at` and
`status` all keep their values.  `tRec` is the instant of the previously
recorded (counted) view and `t` the browser's view-cookie timestamp; the
cookie is refreshed on every response, so `tRec ≤ t`. -/
theorem public_proposal_debounced (p : Proposal) (tRec t now : Int)
    (hc : tRec ≤ t) (hwin : now - tRec < 600) :
    public_proposal p (some t) now = p := by
  have ht : now - t < 600 := by omega
  unfold public_proposal
  simp [ht]

/-- Witness for `public_proposal_debounced`: a refresh 9 minutes after the
counted view (cookie refreshed 4 minutes after it) is a no-op. -/
theorem public_proposal_debounced_witness :
    (200 : Int) ≤ 440 ∧ (740 : Int) - 200 < 600 ∧
      public_proposal sampleViewed (some 440) 740 = sampleViewed :=
  ⟨by decide, by decide,
    public_proposal_debounced sampleViewed 200 440 740 (by decide) (by decide)⟩

/-! ## C9 — regenerated stages are always pending; paid marks are lost -/

/-- C9: every stage row produced by `upsert_payment_stages` has status
`pending` and no `paid_at` timestamp, and — because the builder deletes all
existing stage rows before inserting the new set — its output is exactly
what it builds from scratch, independent of the prior rows: a stage
previously marked `paid` loses that mark whenever an edit regenerates the
payment plan. -/
theorem upsert_payment_stages_pending (old : List PaymentStage) (total : Int)
    (plan : List (String × Int)) :
    (∀ s ∈ upsert_payment_stages old total plan,
        s.status = StageStatus.pending ∧ s.paid_at = none) ∧
      upsert_payment_stages old total plan = upsert_payment_stages [] total plan := by
  refine ⟨?_, rfl⟩
  intro s hs
  simp only [upsert_payment_stages, buildStages, List.mem_map] at hs
  obtain ⟨tp, -, rfl⟩ := hs
  exact ⟨rfl, rfl⟩

/-- Witness for `upsert_payment_stages_pending`: rebuilding a 50/50 plan on
a proposal whose deposit stage was already paid yields a pending deposit
stage with no `paid_at`. -/
theorem upsert_payment_stages_pending_witness :
    ({ title := "Entrada", percent := 50, amount_cents := 5000,
       status := StageStatus.pending, paid_at := none } : PaymentStage) ∈
        upsert_payment_stages
          [{ title := "Entrada", percent := 50, amount_cents := 5000,
             status := StageStatus.paid, paid_at := some 400 },
           { title := "Na entrega", percent := 50, amount_cents := 5000,
             status := StageStatus.pending, paid_at := none }]
          10000 [("Entrada", 50), ("Na entrega", 50)] ∧
      ({ title := "Entrada", percent := 50, amount_cents := 5000,
         status := StageStatus.pending, paid_at := none } : PaymentStage).status =
          StageStatus.pending :=
  ⟨by decide,
    ((upsert_payment_stages_pending
      [{ title := "Entrada", percent := 50, amount_cents := 5000,
         status := StageStatus.paid, paid_at := some 400 },
       { title := "Na entrega", percent := 50, amount_cents := 5000,
         status := StageStatus.pending, paid_at := none }]
      10000 [("Entrada", 50), ("Na entrega", 50)]).1 _ (by decide)).1⟩

/-! ## C1 — stage amounts versus the total -/

/-- `pyRound100` lands within half a unit (in hundredths) of the exact
quotient: the returned integer `q` satisfies `|100 q − n| ≤ 50`. -/
theorem pyRound100_close (n : Int) : |100 * pyRound100 n - n| ≤ 50 := by
  have h1 : 100 * Int.ediv n 100 + Int.emod n 100 = n := Int.ediv_add_emod n 100
  have h2 : 0 ≤ Int.emod n 100 := Int.emod_nonneg n (by norm_num)
  have h3 : Int.emod n 100 < 100 := Int.emod_lt_of_pos n (by norm_num)
  simp only [pyRound100]
  split_ifs <;> (rw [abs_le]; omega)

/-- Summed over any percent list, the rounded stage amounts stay within half
a cent per stage of the exact split of `total`. -/
theorem stageAmount_sum_close (total : Int) (l : List (String × Int)) :
    |(l.map (fun tp => 100 * stageAmount total tp.2)).sum -
        total * (l.map Prod.snd).sum| ≤ 50 * l.length := by
  induction l with
  | nil => simp
  | cons tp l ih =>
    have h1 : |100 * stageAmount total tp.2 - total * tp.2| ≤ 50 := by
      simpa [stageAmount] using pyRound100_close (total * tp.2)
    simp only [List.map_cons, List.sum_cons, List.length_cons]
    have hsplit :
        100 * stageAmount total tp.2 + (l.map (fun tp => 100 * stageAmount total tp.2)).sum -
            total * (tp.2 + (l.map Prod.snd).sum) =
          (100 * stageAmount total tp.2 - total * tp.2) +
            ((l.map (fun tp => 100 * stageAmount total tp.2)).sum -
              total * (l.map Prod.snd).sum) := by ring
    rw [hsplit]
    calc |(100 * stageAmount total tp.2 - total * tp.2) +
            ((l.map (fun tp => 100 * stageAmount total tp.2)).sum -
              total * (l.map Prod.snd).sum)|
        ≤ |100 * stageAmount total tp.2 - total * tp.2| +
            |(l.map (fun tp => 100 * stageAmount total tp.2)).sum -
              total * (l.map Prod.snd).sum| := abs_add _ _
      _ ≤ 50 + 50 * l.length := add_le_add h1 ih
      _ ≤ 50 * (l.length + 1) := by ring_nf; omega

/-- C1 counterexample: at `total_cents = 10001` with the 33/33/34 plan the
builder produces amounts `[3300, 3300, 3400]` — the final stage is rounded
from its own percentage, not computed as `total − Σ previous` — so the
amounts sum to `10000`, not `10001`, and the last amount is `3400`,
not the claimed `3401`. -/
theorem upsert_stage_sum_cex :
    ((upsert_payment_stages [] 10001
        [("Entrada", 33), ("Meio", 33), ("Final", 34)]).map
      (fun s => s.amount_cents)).sum = 10000 ∧
    (10000 : Int) ≠ 10001 ∧
    (upsert_payment_stages [] 10001
        [("Entrada", 33), ("Meio", 33), ("Final", 34)]).map
      (fun s => s.amount_cents) = [3300, 3300, 3400] := by decide

/-- C1 amended: every stage's amount — the final stage's included — is
`round(total_cents × percent / 100)`; the stage amounts need not sum to
`total_cents`, but whenever the normalized percentages sum to 100 the
residual is bounded by half a cent per stage:
`100 · |Σ amounts − total| ≤ 50 · (number of stages)`. -/
theorem upsert_stage_sum_residual (total : Int) (plan : List (String × Int))
    (h : ((cleanedPlan plan).map Prod.snd).sum = 100) :
    100 * |((upsert_payment_stages [] total plan).map
        (fun s => s.amount_cents)).sum - total|
      ≤ 50 * ((cleanedPlan plan).length : Int) := by
  have key := stageAmount_sum_close total (cleanedPlan plan)
  rw [h] at key
  have hamts : (upsert_payment_stages [] total plan).map (fun s => s.amount_cents)
      = (cleanedPlan plan).map (fun tp => stageAmount total tp.2) := by
    simp [upsert_payment_stages, buildStages, List.map_map]
  rw [hamts]
  have hmul : ((cleanedPlan plan).map (fun tp => 100 * stageAmount total tp.2)).sum
      = 100 * ((cleanedPlan plan).map (fun tp => stageAmount total tp.2)).sum :=
    List.sum_map_mul_left _ _ _
  rw [hmul] at key
  calc 100 * |((cleanedPlan plan).map (fun tp => stageAmount total tp.2)).sum - total|
      = |100 * (((cleanedPlan plan).map (fun tp => stageAmount total tp.2)).sum - total)| := by
        rw [abs_mul]; norm_num
    _ = |100 * ((cleanedPlan plan).map (fun tp => stageAmount total tp.2)).sum - total * 100| := by
        ring_nf
    _ ≤ 50 * ((cleanedPlan plan).length : Int) := key

/-- Witness for `upsert_stage_sum_residual`: the 33/33/34 plan on
`total_cents = 10001` has normalized percentages summing to 100 and misses
the total by one cent, within the bound of half a cent per stage. -/
theorem upsert_stage_sum_residual_witness :
    ((cleanedPlan [("Entrada", 33), ("Meio", 33), ("Final", 34)]).map Prod.snd).sum
        = 100 ∧
      100 * |((upsert_payment_stages [] 10001
          [("Entrada", 33), ("Meio", 33), ("Final", 34)]).map
        (fun s => s.amount_cents)).sum - 10001|
        ≤ 50 * ((cleanedPlan [("Entrada", 33), ("Meio", 33), ("Final", 34)]).length : Int) :=
  ⟨by decide,
    upsert_stage_sum_residual 10001 [("Entrada", 33), ("Meio", 33), ("Final", 34)]
      (by decide)⟩

/-! ## C2 — normalized percentages -/

/-- Every percent surviving the clamp-and-drop phase is in `(0, 100]`. -/
theorem survivors_pos_le (plan : List (String × Int)) :
    ∀ tp ∈ survivorsWithFallback plan, 0 < tp.2 ∧ tp.2 ≤ 100 := by
  intro tp htp
  simp only [survivorsWithFallback] at htp
  split at htp
  · simp only [List.mem_singleton] at htp
    subst htp
    exact ⟨by norm_num, by norm_num⟩
  · rw [List.mem_filter] at htp
    obtain ⟨hmem, hpos⟩ := htp
    rw [List.mem_map] at hmem
    obtain ⟨x, -, rfl⟩ := hmem
    refine ⟨by simpa using hpos, ?_⟩
    exact max_le (by norm_num) (min_le_left _ _)

/-- The clamp-and-drop phase never yields an empty list. -/
theorem survivors_ne_nil (plan : List (String × Int)) :
    survivorsWithFallback plan ≠ [] := by
  simp only [survivorsWithFallback]
  split
  · simp
  · next h => simpa [List.isEmpty_iff] using h

/-- C2 counterexample: the plan `[60, 60, 60]` survives the clamp intact,
and the attempt to fix the sum by adjusting only the last stage is itself
clamped at 0, leaving percentages `[60, 60, 0]` that sum to `120`, not
`100`. -/
theorem cleanedPlan_sum_cex :
    ((upsert_payment_stages [] 10000
        [("Entrada", 60), ("Meio", 60), ("Final", 60)]).map
      (fun s => s.percent)).sum = 120 ∧ (120 : Int) ≠ 100 := by decide

/-- C2 amended: after normalization the surviving percentages sum to
`max 100 R`, where `R` is the sum of the surviving percentages other than
the last — the last-stage adjustment is clamped into `[0, 100]`, so the sum
is exactly `100` precisely when the other surviving stages total at most
`100`, and overshoots otherwise. -/
theorem upsert_percent_sum_amended (old : List PaymentStage) (total : Int)
    (plan : List (String × Int)) :
    ((upsert_payment_stages old total plan).map (fun s => s.percent)).sum =
      max 100 (((survivorsWithFallback plan).dropLast).map Prod.snd).sum := by
  have hper : (upsert_payment_stages old total plan).map (fun s => s.percent)
      = (cleanedPlan plan).map Prod.snd := by
    simp [upsert_payment_stages, buildStages, List.map_map]
  rw [hper]
  obtain ⟨l', tp, hl⟩ :
      ∃ l' x, survivorsWithFallback plan = l' ++ [x] := by
    rcases List.eq_nil_or_concat (survivorsWithFallback plan) with h | ⟨l', x, h⟩
    · exact absurd h (survivors_ne_nil plan)
    · exact ⟨l', x, by simpa [List.concat_eq_append] using h⟩
  have hbounds := survivors_pos_le plan
  rw [hl] at hbounds
  have htp : 0 < tp.2 ∧ tp.2 ≤ 100 := hbounds tp (by simp)
  have hrest : 0 ≤ (l'.map Prod.snd).sum := by
    apply List.sum_nonneg
    intro x hx
    rw [List.mem_map] at hx
    obtain ⟨y, hy, rfl⟩ := hx
    exact le_of_lt (hbounds y (by simp [hy])).1
  unfold cleanedPlan
  rw [hl]
  simp only [List.map_append, List.sum_append, List.map_cons, List.sum_cons,
    List.map_nil, List.sum_nil, List.dropLast_concat]
  set R := (l'.map Prod.snd).sum with hR
  by_cases hS : R + (tp.2 + 0) ≠ 100
  · rw [if_pos hS]
    unfold adjustLast
    rw [List.getLast?_concat, List.dropLast_concat]
    simp only [List.map_append, List.sum_append, List.map_cons, List.sum_cons,
      List.map_nil, List.sum_nil]
    have harg : tp.2 + (100 - (R + (tp.2 + 0))) = 100 - R := by ring
    rw [harg]
    unfold clampPercent
    rcases le_total R 100 with hc | hc
    · rw [min_eq_right (by omega), max_eq_right (by omega), max_eq_left (by omega)]
      ring
    · rw [min_eq_right (by omega), max_eq_left (by omega), max_eq_right (by omega)]
      ring
  · rw [if_neg hS]
    push_neg at hS
    simp only [List.map_append, List.sum_append, List.map_cons, List.sum_cons,
      List.map_nil, List.sum_nil]
    rw [max_eq_left (by omega)]
    omega

/-! ## C3 — the status state machine -/

/-- C3 counterexample: the owner-send trigger on a proposal in state
`viewed` moves the status backward to `sent`; and on an accepted proposal
the send trigger is not a no-op — it refreshes `last_activity_at` — so the
state machine neither is backward-free nor leaves accepted proposals
untouched. -/
theorem status_machine_cex :
    statusRank ((send_whatsapp sampleViewed 999).status) < statusRank sampleViewed.status ∧
      send_whatsapp sampleAccepted 999 ≠ sampleAccepted := by decide

/-- C3 amended: the client-view and client-accept triggers never move the
status backward, and the owner-send trigger never does so either except
from `viewed` (it stamps every non-accepted proposal `sent`); no trigger
ever changes the acceptance identity fields, the status `accepted` is never
left once reached, and a repeat accept on a recorded acceptance is a
complete no-op — but the send trigger does refresh `last_activity_at`, so
an accepted proposal is not left entirely unchanged. -/
theorem status_machine_amended (p : Proposal) (lastSeen : Option Int)
    (nm em : String) (now : Int) :
    statusRank p.status ≤ statusRank (public_proposal p lastSeen now).status ∧
    statusRank p.status ≤ statusRank (accept_proposal p nm em now).status ∧
    (p.status ≠ Status.viewed →
      statusRank p.status ≤ statusRank (send_whatsapp p now).status) ∧
    (send_whatsapp p now).status =
      (if p.status = Status.accepted then Status.accepted else Status.sent) ∧
    (send_whatsapp p now).accepted_at = p.accepted_at ∧
    (send_whatsapp p now).accepted_name = p.accepted_name ∧
    (send_whatsapp p now).accepted_email = p.accepted_email ∧
    (public_proposal p lastSeen now).accepted_at = p.accepted_at ∧
    (public_proposal p lastSeen now).accepted_name = p.accepted_name ∧
    (public_proposal p lastSeen now).accepted_email = p.accepted_email ∧
    (p.status = Status.accepted →
      (public_proposal p lastSeen now).status = Status.accepted) ∧
    (p.accepted_at ≠ none → accept_proposal p nm em now = p) := by
  obtain ⟨cid, cn, cw, pn, de, dl, pr, st, vc, fva, lva, laa, rev, ua, tc, aa, an, ae⟩ := p
  refine ⟨?_, ?_, ?_, ?_, ?_, ?_, ?_, ?_, ?_, ?_, ?_, ?_⟩ <;>
    cases lastSeen <;> cases fva <;> cases st <;> cases aa <;>
      simp [public_proposal, accept_proposal, send_whatsapp, statusRank] <;>
      split_ifs <;> simp_all [statusRank]

/-- Witness for `status_machine_amended`, at an accepted proposal: the send
trigger keeps the status `accepted` without moving it backward, the
acceptance fields survive the view trigger, and a repeat accept with a
different name changes nothing. -/
theorem status_machine_amended_witness :
    (send_whatsapp sampleAccepted 999).status = Status.accepted ∧
      statusRank sampleAccepted.status ≤
        statusRank (send_whatsapp sampleAccepted 999).status ∧
      (public_proposal sampleAccepted (some 5) 999).accepted_name =
        sampleAccepted.accepted_name ∧
      (public_proposal sampleAccepted (some 5) 999).status = Status.accepted ∧
      accept_proposal sampleAccepted "Maria" "" 999 = sampleAccepted := by
  obtain ⟨-, -, h3, h4, -, -, -, -, h9, -, h11, h12⟩ :=
    status_machine_amended sampleAccepted (some 5) "Maria" "" 999
  exact ⟨by rw [h4]; decide, h3 (by decide), h9, h11 (by decide), h12 (by decide)⟩

/-! ## C8 — the money parser is total, non-negative, and 0 on bad input -/

/-- Rounding a fraction with non-negative numerator and positive denominator
yields a non-negative integer. -/
theorem pyRoundFrac_nonneg (n d : Int) (hn : 0 ≤ n) (hd : 0 < d) :
    0 ≤ pyRoundFrac n d := by
  have hf : 0 ≤ Int.ediv n d := Int.ediv_nonneg hn (le_of_lt hd)
  simp only [pyRoundFrac]
  split_ifs <;> omega

/-- C8: the money parser is a total function (every branch of the source,
including the `try/except`, returns), its result is never negative, and for
empty input — or any input whose cleaned digit string Python's `float`
would reject — the result is `0`. -/
theorem brl_to_cents_safe (v : String) :
    0 ≤ brl_to_cents v ∧
      ((v = "" ∨ parseFloat (brlTransform (brlStrip v)) = none) →
        brl_to_cents v = 0) := by
  constructor
  · by_cases hv : v = ""
    · simp [brl_to_cents, hv]
    · by_cases hs : brlStrip v = []
      · simp [brl_to_cents, hv, hs]
      · cases hp : parseFloat (brlTransform (brlStrip v)) with
        | none => simp [brl_to_cents, hv, hs, hp]
        | some mk =>
          obtain ⟨m, k⟩ := mk
          have hnn : (0 : Int) ≤ (m : Int) * 100 := by positivity
          have hpos : (0 : Int) < (10 : Int) ^ k := by positivity
          simp only [brl_to_cents, hv, hs, hp, if_neg hv, if_neg hs]
          exact pyRoundFrac_nonneg _ _ hnn hpos
  · intro h
    rcases h with hv | hp
    · simp [brl_to_cents, hv]
    · by_cases hv : v = ""
      · simp [brl_to_cents, hv]
      · by_cases hs : brlStrip v = []
        · simp [brl_to_cents, hv, hs]
        · simp [brl_to_cents, hv, hs, hp]

/-- Witness for `brl_to_cents_safe`: the malformed price `"1.2.3"` (two
decimal points survive cleaning, so `float` raises) resolves to `0`. -/
theorem brl_to_cents_safe_witness :
    (("1.2.3" : String) = "" ∨
        parseFloat (brlTransform (brlStrip "1.2.3")) = none) ∧
      0 ≤ brl_to_cents "1.2.3" ∧ brl_to_cents "1.2.3" = 0 :=
  ⟨by decide, (brl_to_cents_safe "1.2.3").1,
    (brl_to_cents_safe "1.2.3").2 (by decide)⟩

/-! ## C6 — follow-up schedule: three offsets, idempotent -/

/-- C6 (spec-modelled; the scheduler is absent from `src/`): for a
non-accepted proposal the ensure operation creates, from an empty schedule,
exactly one pending entry per offset in {1, 3, 7} days from the anchor;
re-running it on any schedule it produced changes nothing (steps already
present, of any status, are never duplicated); and it never touches an
accepted proposal's schedule. -/
theorem ensure_followups_spec (la ca : Option Int) (now : Int)
    (existing : List FollowUp) :
    ensure_followups false la ca now [] =
      [{ step := 1, due := fuAnchor la ca now + 86400,
         status := FuStatus.pending, sent_at := none },
       { step := 3, due := fuAnchor la ca now + 3 * 86400,
         status := FuStatus.pending, sent_at := none },
       { step := 7, due := fuAnchor la ca now + 7 * 86400,
         status := FuStatus.pending, sent_at := none }] ∧
    ensure_followups false la ca now (ensure_followups false la ca now existing) =
      ensure_followups false la ca now existing ∧
    ensure_followups true la ca now existing = existing := by
  refine ⟨by norm_num [ensure_followups], ?_, rfl⟩
  by_cases h1 : existing.any (fun f => f.step = 1) = true <;>
    by_cases h3 : existing.any (fun f => f.step = 3) = true <;>
      by_cases h7 : existing.any (fun f => f.step = 7) = true <;>
        simp [ensure_followups, h1, h3, h7, List.any_append]

/-! ## C4 — one pre-edit snapshot per edit, revisions 1..N -/

/-- An edit appends exactly one version row: the pre-edit snapshot tagged
with the pre-increment revision. -/
theorem edit_versions_eq (st : DbState) (e : EditInput) (now : Int) :
    (edit_proposal_save st e now).versions =
      st.versions ++ [{ revision := st.prop.revision, snapshot := snapshotOf st }] := rfl

/-- An edit sets the revision to `int(revision or 1) + 1`. -/
theorem edit_rev_eq (st : DbState) (e : EditInput) (now : Int) :
    (edit_proposal_save st e now).prop.revision =
      (if st.prop.revision = 0 then 1 else st.prop.revision) + 1 := rfl

/-- Version rows are append-only: the rows already present before a run of
edits are still there, unchanged, at their old indices afterwards. -/
theorem iter_versions_prefix (es : List (EditInput × Int)) :
    ∀ (st : DbState) (k : Nat), k < st.versions.length →
      (iterEdits st es).versions[k]? = st.versions[k]? := by
  induction es with
  | nil => intro st k hk; rfl
  | cons e es ih =>
    intro st k hk
    have hlen : (edit_proposal_save st e.1 e.2).versions.length =
        st.versions.length + 1 := by
      rw [edit_versions_eq]; simp
    have h1 : iterEdits st (e :: es) = iterEdits (edit_proposal_save st e.1 e.2) es := rfl
    rw [h1, ih _ k (by omega), edit_versions_eq, List.getElem?_append, if_pos hk]

/-- Invariant run of `edit_proposal_save`: starting from any state whose
revision is one more than its version count, a run of `N` edits adds `N`
version rows, adds `N` to the revision, and the row at offset `i` carries
revision `(count before) + i + 1` together with the snapshot of the state
just before edit `i + 1` of the run. -/
theorem iter_edit_spec (es : List (EditInput × Int)) :
    ∀ st : DbState, st.prop.revision = (st.versions.length : Int) + 1 →
      (iterEdits st es).versions.length = st.versions.length + es.length ∧
      (iterEdits st es).prop.revision = st.prop.revision + es.length ∧
      ∀ i, i < es.length →
        (iterEdits st es).versions[st.versions.length + i]? =
          some { revision := ((st.versions.length + i + 1 : Nat) : Int),
                 snapshot := snapshotOf (iterEdits st (es.take i)) } := by
  induction es with
  | nil =>
    intro st h
    refine ⟨by simp [iterEdits], by simp [iterEdits], ?_⟩
    intro i hi
    exact absurd hi (Nat.not_lt_zero i)
  | cons e es ih =>
    intro st h
    have hlen' : (edit_proposal_save st e.1 e.2).versions.length =
        st.versions.length + 1 := by
      rw [edit_versions_eq]; simp
    have hne : st.prop.revision ≠ 0 := by omega
    have hrev' : (edit_proposal_save st e.1 e.2).prop.revision =
        st.prop.revision + 1 := by
      rw [edit_rev_eq, if_neg hne]
    have h' : (edit_proposal_save st e.1 e.2).prop.revision =
        ((edit_proposal_save st e.1 e.2).versions.length : Int) + 1 := by
      rw [hrev', hlen', h]; push_cast; ring
    obtain ⟨ihlen, ihrev, ihget⟩ := ih (edit_proposal_save st e.1 e.2) h'
    have hiter : iterEdits st (e :: es) =
        iterEdits (edit_proposal_save st e.1 e.2) es := rfl
    refine ⟨?_, ?_, ?_⟩
    · rw [hiter, ihlen, hlen']; simp only [List.length_cons]; omega
    · rw [hiter, ihrev, hrev']; simp only [List.length_cons]; push_cast; omega
    · intro i hi
      cases i with
      | zero =>
        rw [hiter, Nat.add_zero,
          iter_versions_prefix es (edit_proposal_save st e.1 e.2)
            st.versions.length (by omega),
          edit_versions_eq, List.getElem?_append, if_neg (lt_irrefl _)]
        simp only [Nat.sub_self, List.getElem?_cons_zero, Option.some.injEq]
        have hr : st.prop.revision = ((st.versions.length + 0 + 1 : Nat) : Int) := by
          push_cast; omega
        rw [hr]
        rfl
      | succ j =>
        have hij : j < es.length := by simpa using hi
        have hidx : st.versions.length + (j + 1) =
            (edit_proposal_save st e.1 e.2).versions.length + j := by omega
        rw [hiter, hidx]
        exact ihget j hij

/-- C4: starting from a fresh proposal (revision 1, no version rows), each
edit first appends exactly one ProposalVersion holding the pre-edit state
tagged with the pre-increment revision and only then bumps the revision by
one, so after `N` edits exactly `N` version rows exist, the row at offset
`i` (creation order) carries revision `i + 1`, its snapshot is the state
immediately before edit `i + 1`, and the proposal's revision is `N + 1`. -/
theorem edit_versioning (st : DbState) (es : List (EditInput × Int))
    (h0 : st.versions = []) (h1 : st.prop.revision = 1) :
    (iterEdits st es).versions.length = es.length ∧
      (iterEdits st es).prop.revision = (es.length : Int) + 1 ∧
      ∀ i, i < es.length →
        (iterEdits st es).versions[i]? =
          some { revision := ((i + 1 : Nat) : Int),
                 snapshot := snapshotOf (iterEdits st (es.take i)) } := by
  have h : st.prop.revision = (st.versions.length : Int) + 1 := by
    rw [h0, h1]; simp
  obtain ⟨hl, hr, hg⟩ := iter_edit_spec es st h
  refine ⟨by rw [hl, h0]; simp, by rw [hr, h1]; ring, ?_⟩
  intro i hi
  have hgi := hg i hi
  rw [h0] at hgi
  simpa using hgi

/-- Witness for `edit_versioning`: two concrete edits on a fresh proposal
leave two version rows, the second tagged revision 2 with the state that
held after the first edit. -/
theorem edit_versioning_witness :
    sampleFreshDb.versions = [] ∧ sampleFreshDb.prop.revision = 1 ∧
      (iterEdits sampleFreshDb sampleEdits).versions.length = 2 ∧
      (iterEdits sampleFreshDb sampleEdits).versions[1]? =
        some { revision := ((1 + 1 : Nat) : Int),
               snapshot := snapshotOf (iterEdits sampleFreshDb (sampleEdits.take 1)) } :=
  ⟨rfl, rfl, (edit_versioning sampleFreshDb sampleEdits rfl rfl).1,
    (edit_versioning sampleFreshDb sampleEdits rfl rfl).2.2 1 (by decide)⟩

end Propoflow
